import Mathlib

/-!
A shallow embedding of the calendar event view-model
(`CalendarEventViewModel`), its update distributor contract and its
delete/save flows, together with proofs checking the repository's
specification against it.

Modelling conventions:
* JS `Date` instants are integers counting minutes since the epoch; the
  configured time zone is modelled as a fixed zero-offset zone (UTC), so the
  zone-dependent helpers from `CalendarUtils` (which is not part of the
  reviewed sources) become plain day arithmetic.  The claims under study
  never depend on a non-trivial offset.
* JS numbers that can be `NaN` (the view-model's repeat `interval` and
  `endValue`) are modelled by `JsNum`.
* Asynchronous collaborator calls (calendar store, update distributor) are
  modelled as an explicit trace of `Effect`s in the order the code initiates
  them.
-/

namespace Tutanota

/-- Attendee response status, as in `CalendarAttendeeStatus` of
`TutanotaConstants` (the spec's set: needs-action, accepted, declined,
tentative). -/
inductive CalendarAttendeeStatus
  | NEEDS_ACTION
  | ACCEPTED
  | DECLINED
  | TENTATIVE
deriving DecidableEq

/-- Repeat frequency, as in `RepeatPeriod` of `TutanotaConstants`. -/
inductive RepeatPeriod
  | DAILY
  | WEEKLY
  | MONTHLY
  | ANNUALLY
deriving DecidableEq

/-- Repeat end condition, as in `EndType` of `TutanotaConstants`. -/
inductive EndType
  | Never
  | Count
  | UntilDate
deriving DecidableEq

/-- Share capability levels, as in `ShareCapability` of `TutanotaConstants`
(`Read = "0"`, `Write = "1"`, `Invite = "2"`). -/
inductive ShareCapability
  | Read
  | Write
  | Invite
deriving DecidableEq

/-- Numeric rank of a capability, mirroring the numeric constant strings. -/
def capabilityLevel : ShareCapability → Nat
  | ShareCapability.Read => 0
  | ShareCapability.Write => 1
  | ShareCapability.Invite => 2

/-- An `EncryptedMailAddress` entity: a display name and an address. -/
structure EncryptedMailAddress where
  name : String
  address : String
deriving DecidableEq

/-- A `MailAddress` entity (what `createMailAddress` builds for
`sendResponse`). -/
structure MailAddress where
  name : String
  address : String
deriving DecidableEq

/-- A `CalendarEventAttendee` entity: an address plus a response status. -/
structure CalendarEventAttendee where
  address : EncryptedMailAddress
  status : CalendarAttendeeStatus
deriving DecidableEq

/-- A repeat rule entity.  In the source `interval` and `endValue` are
number strings; `interval` is modelled as the parsed integer and `endValue`
keeps the string written by `onOkPressed` (`none` = null, the entity
default). -/
structure RepeatRule where
  frequency : RepeatPeriod
  interval : Int
  endType : EndType
  endValue : Option String
deriving DecidableEq

/-- An `AlarmInfo` entity (`createCalendarAlarm` sets identifier and
trigger). -/
structure AlarmInfo where
  alarmIdentifier : String
  trigger : String
deriving DecidableEq

/-- A `CalendarEvent` entity, restricted to the fields the view-model reads
or writes.  `startTime`/`endTime` are instants (minutes since epoch),
`sequence` is the revision counter (a number string in the source),
`ownerGroup` is the owning calendar's group id (`_ownerGroup`, null for
events from files), `uid` is `none` when unset. -/
structure CalendarEvent where
  summary : String := ""
  startTime : Int := 0
  endTime : Int := 0
  description : String := ""
  location : String := ""
  organizer : Option String := none
  attendees : List CalendarEventAttendee := []
  isCopy : Bool := false
  sequence : Nat := 0
  uid : Option String := none
  ownerGroup : Option String := none
  repeatRule : Option RepeatRule := none
deriving DecidableEq

/-- `createCalendarEvent()`: a fresh entity with default field values. -/
def createCalendarEvent : CalendarEvent := {}

/-- A `CalendarInfo` from the calendar map: its group root reference, its
shared flag and the id of its group (used for capability lookup). -/
structure CalendarInfo where
  groupRoot : String
  shared : Bool
  group : String
deriving DecidableEq, Inhabited

/-- A `GroupMembership` of the user: a group id and the capability it
grants. -/
structure GroupMembership where
  group : String
  capability : ShareCapability
deriving DecidableEq

/-- A `User` entity, restricted to its group memberships. -/
structure User where
  memberships : List GroupMembership
deriving DecidableEq

/-- Modelled from the spec: `hasCapabilityOnGroup` lives in `CalendarUtils`,
which is not among the reviewed sources.  Per the spec a capability is "a
permission level (none/read/write/invite) a viewer holds on a shared
calendar" and the viewer's capability "includes Write" when the granted
level is at least Write; no membership means no capability. -/
def hasCapabilityOnGroup (user : User) (group : String) (requested : ShareCapability) : Bool :=
  match user.memberships.find? (fun m => m.group == group) with
  | some m => decide (capabilityLevel requested ≤ capabilityLevel m.capability)
  | none => false

/-- The event classification `EventType` (derived, never stored). -/
inductive EventType
  | OWN
  | SHARED_RO
  | SHARED_RW
  | INVITE
deriving DecidableEq

/-- `calendars.get(id)` on the calendar map, modelled over an association
list. -/
def lookupCalendar (calendars : List (String × CalendarInfo)) (group : String) :
    Option CalendarInfo :=
  (calendars.find? (fun p => p.1 == group)).map (fun p => p.2)

/-- The `_eventType` computation of the `CalendarEventViewModel`
constructor: no existing event is OWN; an existing event whose
`_ownerGroup` is unset or not in the calendar map is INVITE; an event in a
shared calendar is SHARED_RW or SHARED_RO depending on the Write
capability; an event in a personal calendar is INVITE when it is a copy and
OWN otherwise. -/
def eventTypeOf (existingEvent : Option CalendarEvent)
    (calendars : List (String × CalendarInfo)) (user : User) : EventType :=
  match existingEvent with
  | none => EventType.OWN
  | some ev =>
    match ev.ownerGroup.bind (lookupCalendar calendars) with
    | some calendarInfoForEvent =>
      if calendarInfoForEvent.shared then
        if hasCapabilityOnGroup user calendarInfoForEvent.group ShareCapability.Write then
          EventType.SHARED_RW
        else
          EventType.SHARED_RO
      else
        if ev.isCopy then EventType.INVITE else EventType.OWN
    | none => EventType.INVITE

/-- The classification stated as the spec's ordered first-match rule list
(spec section 4.1, used to compare against `eventTypeOf`): rule 1 no
existing event, rule 2 owning calendar absent from the viewer's map, rule 3
shared calendar, rule 4 personal calendar. -/
def classifySpec (existingEvent : Option CalendarEvent)
    (calendars : List (String × CalendarInfo)) (user : User) : EventType :=
  match existingEvent with
  | none => EventType.OWN
  | some ev =>
    if (ev.ownerGroup.bind (lookupCalendar calendars)).isNone then
      EventType.INVITE
    else
      let info := (ev.ownerGroup.bind (lookupCalendar calendars)).getD default
      if info.shared then
        if hasCapabilityOnGroup user info.group ShareCapability.Write then
          EventType.SHARED_RW
        else
          EventType.SHARED_RO
      else
        if ev.isCopy then EventType.INVITE else EventType.OWN

/-- The `readOnly` field computed by the constructor.  The source reads
`assertNotNull(existingEvent).attendees.length`; that factor is only
evaluated when the classification is SHARED_RW, which the constructor only
produces together with a non-null existing event, so the unreachable `none`
branch is modelled as an empty attendee list. -/
def readOnlyOf (eventType : EventType) (existingEvent : Option CalendarEvent) : Bool :=
  eventType != EventType.OWN
  && eventType != EventType.INVITE
  && (eventType != EventType.SHARED_RW
      || (match existingEvent with
          | some e => e.attendees.length != 0
          | none => false))

/-- A JS number that may be `NaN`. -/
inductive JsNum
  | nan
  | num (v : Int)
deriving DecidableEq

/-- `x || 1` on a JS number: `NaN` and `0` are falsy. -/
def JsNum.orOne : JsNum → Int
  | JsNum.nan => 1
  | JsNum.num v => if v == 0 then 1 else v

/-- `x < bound` on a JS number: every comparison with `NaN` is false. -/
def JsNum.ltInt : JsNum → Int → Bool
  | JsNum.nan, _ => false
  | JsNum.num v, bound => decide (v < bound)

/-- `String(x)` on a JS number. -/
def jsNumString : JsNum → String
  | JsNum.nan => "NaN"
  | JsNum.num v => toString v

/-- Minutes in a day; instants are minutes since the epoch. -/
def minutesPerDay : Int := 1440

/-- Modelled from the spec: `getStartOfDayWithZone` from `CalendarUtils`
(not among the reviewed sources) truncates an instant to the start of its
calendar day; the zone is modelled as UTC. -/
def getStartOfDayWithZone (d : Int) (zone : String) : Int :=
  minutesPerDay * (d.fdiv minutesPerDay)

/-- Modelled from the spec: `getAllDayDateUTCFromZone` from `CalendarUtils`
(not among the reviewed sources) re-expresses a local calendar date at UTC
midnight; with the zone modelled as UTC it is the start of the day. -/
def getAllDayDateUTCFromZone (d : Int) (zone : String) : Int :=
  getStartOfDayWithZone d zone

/-- Modelled from the spec: `getStartOfNextDayWithZone` from
`CalendarUtils` (not among the reviewed sources). -/
def getStartOfNextDayWithZone (d : Int) (zone : String) : Int :=
  getStartOfDayWithZone d zone + minutesPerDay

/-- Modelled from the spec: `getEventStart` from `CalendarUtils` (not among
the reviewed sources); with the zone modelled as UTC both the all-day and
the timed representation start at the stored `startTime`. -/
def getEventStart (e : CalendarEvent) (zone : String) : Int :=
  e.startTime

/-- `getStartOfNextDayWithZone` lifted to a possibly-`NaN` instant (JS
date arithmetic on an invalid date stays invalid). -/
def jsStartOfNextDay (d : JsNum) (zone : String) : JsNum :=
  match d with
  | JsNum.nan => JsNum.nan
  | JsNum.num v => JsNum.num (getStartOfNextDayWithZone v zone)

/-- `getAllDayDateUTCFromZone` lifted to a possibly-`NaN` instant. -/
def jsAllDayDateUTCFromZone (d : JsNum) (zone : String) : JsNum :=
  match d with
  | JsNum.nan => JsNum.nan
  | JsNum.num v => JsNum.num (getAllDayDateUTCFromZone v zone)

/-- An hour-and-minute time of day, the result of `parseTime`. -/
structure Time where
  hours : Nat
  minutes : Nat
deriving DecidableEq

/-- Split a character list at every colon. -/
def splitOnColon (cs : List Char) : List (List Char) :=
  match cs with
  | [] => [[]]
  | c :: rest =>
    let r := splitOnColon rest
    if c == ':' then
      [] :: r
    else
      match r with
      | [] => [[c]]
      | h :: t => (c :: h) :: t

/-- Parse a non-empty run of decimal digits, `none` on anything else. -/
def digitsToNat? (cs : List Char) : Option Nat :=
  match cs with
  | [] => none
  | _ =>
    if cs.all (fun c => c.isDigit) then
      some (cs.foldl (fun acc c => 10 * acc + (c.toNat - 48)) 0)
    else
      none

/-- Modelled from the spec: `parseTime` from `CalendarUtils` (not among the
reviewed sources) parses a time-of-day string to a valid hour:minute pair
and fails on anything else.  The 12-hour display variant is irrelevant to
the claims and not modelled. -/
def parseTime (s : String) : Option Time :=
  match splitOnColon s.toList with
  | [h, m] =>
    match digitsToNat? h, digitsToNat? m with
    | some hh, some mm => if hh < 24 && mm < 60 then some ⟨hh, mm⟩ else none
    | _, _ => none
  | _ => none

/-- `DateTime.fromJSDate(d).set({hour, minute})`, zone modelled as UTC. -/
def setHourMinute (d : Int) (t : Time) (zone : String) : Int :=
  getStartOfDayWithZone d zone + 60 * (t.hours : Int) + (t.minutes : Int)

/-- The view-model's editable repeat state (field `repeat`, a reserved word
in Lean): frequency, interval, end condition and end value; `interval` and
`endValue` are JS numbers that may be `NaN`. -/
structure RepeatProps where
  frequency : RepeatPeriod
  interval : JsNum
  endType : EndType
  endValue : JsNum
deriving DecidableEq

/-- The `CalendarEventViewModel` state at save time, restricted to the
fields `onOkPressed`/`deleteEvent` read: the editable event fields, the
snapshot `existingEvent`, the derived `_eventType`, the viewer's enabled
mail addresses (`_mailAddresses`), the selected calendar and the zone. -/
structure CalendarEventViewModel where
  summary : String
  attendees : List CalendarEventAttendee
  organizer : Option String
  location : String
  note : String
  allDay : Bool
  startDate : Int
  endDate : Int
  startTime : String
  endTime : String
  repeatProps : Option RepeatProps
  alarms : List AlarmInfo
  going : CalendarAttendeeStatus
  existingEvent : Option CalendarEvent
  eventType : EventType
  mailAddresses : List String
  selectedCalendar : CalendarInfo
  zone : String
deriving DecidableEq

/-- `_viewingOwnEvent()`: no existing event, or an existing event that is
not a copy and whose organizer is unset or one of the viewer's own
addresses. -/
def viewingOwnEvent (vm : CalendarEventViewModel) : Bool :=
  match vm.existingEvent with
  | none => true
  | some e =>
    !e.isCopy
      && (match e.organizer with
          | none => true
          | some o => vm.mailAddresses.contains o)

/-- The error keys `onOkPressed` can return (`timeFormatInvalid_msg` is the
spec's InvalidTimeFormat, `startAfterEnd_label` its EndBeforeStart). -/
inductive TranslationKey
  | timeFormatInvalid_msg
  | startAfterEnd_label
deriving DecidableEq

/-- One collaborator call: a calendar-store persistence call or an update
distributor dispatch, recorded with its arguments in initiation order. -/
inductive Effect
  | createEvent (event : CalendarEvent) (alarms : List AlarmInfo) (zone : String)
      (groupRoot : String)
  | updateEvent (event : CalendarEvent) (alarms : List AlarmInfo) (zone : String)
      (groupRoot : String) (previous : CalendarEvent)
  | storeDeleteEvent (event : CalendarEvent)
  | sendUpdate (event : CalendarEvent) (recipients : List EncryptedMailAddress)
  | sendInvite (event : CalendarEvent) (recipients : List EncryptedMailAddress)
  | sendCancellation (event : CalendarEvent) (recipients : List EncryptedMailAddress)
  | sendResponse (event : CalendarEvent) (sender : MailAddress)
      (status : CalendarAttendeeStatus)
deriving DecidableEq

/-- Whether an effect is a store create or update call. -/
def Effect.isPersist : Effect → Bool
  | Effect.createEvent .. => true
  | Effect.updateEvent .. => true
  | _ => false

/-- Whether an effect is a `sendUpdate` dispatch. -/
def Effect.isSendUpdate : Effect → Bool
  | Effect.sendUpdate .. => true
  | _ => false

/-- Whether an effect is a `sendInvite` dispatch. -/
def Effect.isSendInvite : Effect → Bool
  | Effect.sendInvite .. => true
  | _ => false

/-- Whether an effect is a `sendCancellation` dispatch. -/
def Effect.isSendCancellation : Effect → Bool
  | Effect.sendCancellation .. => true
  | _ => false

/-- Whether an effect is a `sendResponse` dispatch. -/
def Effect.isSendResponse : Effect → Bool
  | Effect.sendResponse .. => true
  | _ => false

/-- The contractual dispatch order: update before invite before
cancellation (other effects are unranked). -/
def Effect.sendRank : Effect → Option Nat
  | Effect.sendUpdate .. => some 0
  | Effect.sendInvite .. => some 1
  | Effect.sendCancellation .. => some 2
  | _ => none

/-- The result of `onOkPressed` as seen by the caller: a structured error,
or ok with an optional deferred-confirmation callback; the callback's
effects are the trace it runs for a given boolean answer. -/
inductive SaveResult
  | error (error : TranslationKey)
  | ok (askForUpdates : Option (Bool → List Effect))

/-- Everything one `onOkPressed` call produces: the effects initiated by
the time the result is delivered, the result, and the post-call view-model
state (`existingEvent` can be mutated in place by the own-response path). -/
structure OnOkResult where
  effects : List Effect
  result : SaveResult
  vmAfter : CalendarEventViewModel

/-- The trace the deferred confirmation callback runs for answer `b`
(empty when the result carries no callback). -/
def callbackTrace (r : OnOkResult) (b : Bool) : List Effect :=
  match r.result with
  | SaveResult.ok (some cb) => cb b
  | _ => []

/-- Modelled from the spec: `generateUid` from `CommonCalendarUtils` (not
among the reviewed sources) generates a stable UID for a new event; its
format is irrelevant to every claim and it is modelled as a constant. -/
def generateUid (e : CalendarEvent) (timestamp : Int) : String :=
  "generated-uid"

/-- Modelled from the spec: `createRepeatRuleWithValues` from
`CalendarUtils` (not among the reviewed sources) builds a repeat rule with
the given frequency and interval and default end condition. -/
def createRepeatRuleWithValues (frequency : RepeatPeriod) (interval : Int) : RepeatRule :=
  { frequency := frequency, interval := interval, endType := EndType.Never, endValue := none }

/-- The start/end instants `onOkPressed` computes before validation
(source lines 424-445): all-day events are widened to UTC-midnight
boundaries with an exclusive end on the next day; timed events combine the
selected dates with the parsed time strings, `none` when a time string does
not parse. -/
def computeStartEnd (vm : CalendarEventViewModel) : Option (Int × Int) :=
  if vm.allDay then
    some (getAllDayDateUTCFromZone vm.startDate vm.zone,
      getAllDayDateUTCFromZone (getStartOfNextDayWithZone vm.endDate vm.zone) vm.zone)
  else
    match parseTime vm.startTime, parseTime vm.endTime with
    | some parsedStartTime, some parsedEndTime =>
      some (setHourMinute vm.startDate parsedStartTime vm.zone,
        setHourMinute vm.endDate parsedEndTime vm.zone)
    | _, _ => none

/-- The repeat-rule assembly of `onOkPressed` (source lines 457-488): a
Count end whose value is `NaN` or below 1 silently degrades to Never; an
UntilDate end earlier than the event start is an EndBeforeStart error,
otherwise the end value is stored UTC-encoded for all-day events. -/
def assembleRepeatRule (vm : CalendarEventViewModel) (eventStart : Int) :
    Except TranslationKey (Option RepeatRule) :=
  match vm.repeatProps with
  | none => Except.ok none
  | some rp =>
    let interval := rp.interval.orOne
    let repeatRule := createRepeatRuleWithValues rp.frequency interval
    let stopType := rp.endType
    match stopType with
    | EndType.Never => Except.ok (some { repeatRule with endType := stopType })
    | EndType.Count =>
      match rp.endValue with
      | JsNum.nan => Except.ok (some { repeatRule with endType := EndType.Never })
      | JsNum.num count =>
        if count < 1 then
          Except.ok (some { repeatRule with endType := EndType.Never })
        else
          Except.ok (some { repeatRule with
            endType := stopType, endValue := some (toString count) })
    | EndType.UntilDate =>
      let repeatEndDate := jsStartOfNextDay rp.endValue vm.zone
      if repeatEndDate.ltInt eventStart then
        Except.error TranslationKey.startAfterEnd_label
      else
        Except.ok (some { repeatRule with
          endType := stopType,
          endValue := some (jsNumString
            (if vm.allDay then jsAllDayDateUTCFromZone repeatEndDate vm.zone
             else repeatEndDate)) })

/-- The validation and event assembly of `onOkPressed` (source lines
418-501): clone the existing event (or create a fresh one), validate the
times, write the editable fields, keep or generate the uid, bump the
sequence for an update, attach attendees, organizer and the repeat rule. -/
def assembleNewEvent (vm : CalendarEventViewModel) : Except TranslationKey CalendarEvent :=
  let base :=
    match vm.existingEvent with
    | some e => e
    | none => createCalendarEvent
  match computeStartEnd vm with
  | none => Except.error TranslationKey.timeFormatInvalid_msg
  | some (startDate, endDate) =>
    if endDate ≤ startDate then
      Except.error TranslationKey.startAfterEnd_label
    else
      let e1 := { base with
        startTime := startDate
        description := vm.note
        summary := vm.summary
        location := vm.location
        endTime := endDate
        uid :=
          match vm.existingEvent with
          | some ex =>
            match ex.uid with
            | some u => some u
            | none => some (generateUid base 0)
          | none => some (generateUid base 0)
        sequence :=
          match vm.existingEvent with
          | some ex => ex.sequence + 1
          | none => base.sequence
        attendees := vm.attendees
        organizer := vm.organizer }
      match assembleRepeatRule vm (getEventStart e1 vm.zone) with
      | Except.error k => Except.error k
      | Except.ok rr => Except.ok { e1 with repeatRule := rr }

/-- The organizer-path attendee classification loop of `onOkPressed`
(source lines 505-514): walk the current attendees, skip the viewer's own
addresses, and split the rest into (new, retained-existing) by whether the
address already occurs on the existing event. -/
def diffNewRetained (mailAddresses : List String) (prior : List CalendarEventAttendee) :
    List CalendarEventAttendee → List CalendarEventAttendee × List CalendarEventAttendee
  | [] => ([], [])
  | a :: rest =>
    if mailAddresses.contains a.address.address then
      diffNewRetained mailAddresses prior rest
    else if prior.any (fun ea => ea.address.address == a.address.address) then
      let d := diffNewRetained mailAddresses prior rest
      (d.1, a :: d.2)
    else
      let d := diffNewRetained mailAddresses prior rest
      (a :: d.1, d.2)

/-- The removed-attendee computation of `onOkPressed` (source lines
515-518): prior attendees that are neither the viewer's own address nor
still present in the current list. -/
def removedAttendeesOf (mailAddresses : List String)
    (prior current : List CalendarEventAttendee) : List CalendarEventAttendee :=
  prior.filter (fun ea =>
    !mailAddresses.contains ea.address.address
      && !(current.any (fun a => ea.address.address == a.address.address)))

/-- The full attendee diff of the organizer path (source lines 503-522),
returning (new, retained-existing, removed); with no existing event every
non-own current attendee is new. -/
def organizerDiff (vm : CalendarEventViewModel) :
    List CalendarEventAttendee × List CalendarEventAttendee × List CalendarEventAttendee :=
  match vm.existingEvent with
  | some existingEvent =>
    let d := diffNewRetained vm.mailAddresses existingEvent.attendees vm.attendees
    (d.1, d.2, removedAttendeesOf vm.mailAddresses existingEvent.attendees vm.attendees)
  | none =>
    (vm.attendees.filter (fun a => !vm.mailAddresses.contains a.address.address), [], [])

/-- In-place update of the first attendee carrying one of the viewer's own
addresses to the given status (the `ownAttendee.status = this.going`
assignment mutates the object `find` located on the existing event). -/
def updateFirstOwnStatus (mailAddresses : List String) (going : CalendarAttendeeStatus) :
    List CalendarEventAttendee → List CalendarEventAttendee
  | [] => []
  | a :: rest =>
    if mailAddresses.contains a.address.address then
      { a with status := going } :: rest
    else
      a :: updateFirstOwnStatus mailAddresses going rest

/-- The own-response condition of the non-organizer path (source line 528):
the viewer appears as an attendee on the existing event, the selected going
status is not needs-action and differs from that attendee's last-saved
status. -/
def ownResponseCondition (vm : CalendarEventViewModel) : Bool :=
  match vm.existingEvent with
  | some existingEvent =>
    match existingEvent.attendees.find? (fun a => vm.mailAddresses.contains a.address.address) with
    | some ownAttendee =>
      vm.going != CalendarAttendeeStatus.NEEDS_ACTION && ownAttendee.status != vm.going
    | none => false
  | none => false

/-- The non-organizer own-response block of `onOkPressed` (source lines
523-536): when the own-response condition holds, set the own attendee's
status on the existing event in place and dispatch a `sendResponse`;
returns the dispatched effects and the (possibly mutated) existing
event. -/
def ownResponseStep (vm : CalendarEventViewModel) (newEvent : CalendarEvent) :
    List Effect × Option CalendarEvent :=
  match vm.existingEvent with
  | some existingEvent =>
    match existingEvent.attendees.find? (fun a => vm.mailAddresses.contains a.address.address) with
    | some ownAttendee =>
      if vm.going != CalendarAttendeeStatus.NEEDS_ACTION && ownAttendee.status != vm.going then
        ([Effect.sendResponse newEvent
            { name := ownAttendee.address.name, address := ownAttendee.address.address }
            vm.going],
          some { existingEvent with
            attendees := updateFirstOwnStatus vm.mailAddresses vm.going existingEvent.attendees })
      else
        ([], vm.existingEvent)
    | none => ([], vm.existingEvent)
  | none => ([], vm.existingEvent)

/-- `doCreateEvent` (source lines 538-544): create when there was no
existing event, update (passing the previous event) otherwise. -/
def doCreateEvent (vm : CalendarEventViewModel) (newEvent : CalendarEvent)
    (existingEventNow : Option CalendarEvent) : Effect :=
  match existingEventNow with
  | none => Effect.createEvent newEvent vm.alarms vm.zone vm.selectedCalendar.groupRoot
  | some previous =>
    Effect.updateEvent newEvent vm.alarms vm.zone vm.selectedCalendar.groupRoot previous

/-- `_distributionAddresses`: the recipients of a dispatch. -/
def distributionAddresses (guests : List CalendarEventAttendee) : List EncryptedMailAddress :=
  guests.map (fun a => a.address)

/-- `onOkPressed` (source lines 418-578): validate and assemble the event;
in the organizer path compute the attendee diff and either defer behind a
confirmation callback (retained or removed attendees exist) or persist and
invite immediately; in the non-organizer path run the own-response block,
then persist; errors perform nothing. -/
def onOkPressed (vm : CalendarEventViewModel) : OnOkResult :=
  match assembleNewEvent vm with
  | Except.error k => { effects := [], result := SaveResult.error k, vmAfter := vm }
  | Except.ok newEvent =>
    let d := if viewingOwnEvent vm then organizerDiff vm else ([], [], [])
    let newAttendees := d.1
    let existingAttendees := d.2.1
    let removedAttendees := d.2.2
    let step := if viewingOwnEvent vm then ([], vm.existingEvent) else ownResponseStep vm newEvent
    let responseEffects := step.1
    let existingEventAfter := step.2
    let persist := doCreateEvent vm newEvent existingEventAfter
    let vmAfter := { vm with existingEvent := existingEventAfter }
    if (viewingOwnEvent vm && existingAttendees.length != 0) || removedAttendees.length != 0 then
      { effects := responseEffects,
        result := SaveResult.ok (some (fun sendOutUpdate =>
          persist ::
            ((if sendOutUpdate && existingAttendees.length != 0 then
                [Effect.sendUpdate newEvent (distributionAddresses existingAttendees)]
              else [])
              ++ (if sendOutUpdate && newAttendees.length != 0 then
                    [Effect.sendInvite newEvent (distributionAddresses newAttendees)]
                  else [])
              ++ (if sendOutUpdate && removedAttendees.length != 0 then
                    [Effect.sendCancellation newEvent (distributionAddresses removedAttendees)]
                  else [])))),
        vmAfter := vmAfter }
    else
      { effects := responseEffects
          ++ [persist]
          ++ (if newAttendees.length != 0 then
                [Effect.sendInvite newEvent (distributionAddresses newAttendees)]
              else []),
        result := SaveResult.ok none,
        vmAfter := vmAfter }

/-- A collaborator failure: the store's `NotFoundError` or any other
failure. -/
inductive RestError
  | notFound
  | other
deriving DecidableEq

/-- `.catch(NotFoundError, noOp)` applied to the flow's outcome: a
not-found failure is swallowed, anything else passes through. -/
def catchNotFound : Option RestError → Option RestError
  | some RestError.notFound => none
  | e => e

/-- `deleteEvent` (source lines 406-416), parameterised by the outcomes of
the cancellation dispatch and of the store delete (`none` = success): with
an OWN event that has attendees, await a cancellation to every attendee's
address and only then delete; otherwise delete directly; the whole chain is
wrapped in the not-found catch.  Returns the initiated effects and the
final failure, if any. -/
def deleteEvent (vm : CalendarEventViewModel)
    (cancellationFailure deleteFailure : Option RestError) :
    List Effect × Option RestError :=
  match vm.existingEvent with
  | none => ([], none)
  | some event =>
    if vm.eventType == EventType.OWN && event.attendees.length != 0 then
      let cancelEffects :=
        [Effect.sendCancellation event (event.attendees.map (fun a => a.address))]
      match cancellationFailure with
      | some e => (cancelEffects, catchNotFound (some e))
      | none =>
        (cancelEffects ++ [Effect.storeDeleteEvent event], catchNotFound deleteFailure)
    else
      ([Effect.storeDeleteEvent event], catchNotFound deleteFailure)

/-!
## Concrete fixtures (used by witnesses and counterexamples)
-/

/-- A minimal view-model state: an all-day event on the epoch day in the
viewer's own calendar, no attendees, no repeat. -/
def baseVM : CalendarEventViewModel :=
  { summary := "summary"
    attendees := []
    organizer := some "organizer@tutanota.com"
    location := ""
    note := ""
    allDay := true
    startDate := 0
    endDate := 0
    startTime := "12:00"
    endTime := "13:00"
    repeatProps := none
    alarms := []
    going := CalendarAttendeeStatus.NEEDS_ACTION
    existingEvent := none
    eventType := EventType.OWN
    mailAddresses := ["organizer@tutanota.com"]
    selectedCalendar := { groupRoot := "groupRoot", shared := false, group := "0" }
    zone := "Europe/Berlin" }

/-- A guest attendee who has not answered yet. -/
def guestAttendee : CalendarEventAttendee :=
  { address := { name := "", address := "guest@example.com" },
    status := CalendarAttendeeStatus.NEEDS_ACTION }

/-- A view-model editing an own existing event that already has one guest,
kept on the guest list (so the diff retains it). -/
def c3vm : CalendarEventViewModel :=
  { baseVM with
    existingEvent := some { createCalendarEvent with
      organizer := some "organizer@tutanota.com"
      attendees := [guestAttendee] }
    attendees := [guestAttendee] }

/-- The event `onOkPressed` assembles for `c3vm`. -/
def c3event : CalendarEvent := (assembleNewEvent c3vm).toOption.getD createCalendarEvent

/-- A view-model answering an invite: the existing event is a copy
organised elsewhere, the viewer appears as an undecided attendee and has
selected ACCEPTED. -/
def c6vm : CalendarEventViewModel :=
  { baseVM with
    existingEvent := some { createCalendarEvent with
      organizer := some "other@example.com"
      isCopy := true
      attendees := [{ address := { name := "", address := "organizer@tutanota.com" },
                      status := CalendarAttendeeStatus.NEEDS_ACTION }] }
    attendees := [{ address := { name := "", address := "organizer@tutanota.com" },
                    status := CalendarAttendeeStatus.ACCEPTED }]
    going := CalendarAttendeeStatus.ACCEPTED }

/-- The event `onOkPressed` assembles for `c6vm`. -/
def c6event : CalendarEvent := (assembleNewEvent c6vm).toOption.getD createCalendarEvent

/-- An own existing event with one guest, for the deletion flow. -/
def c7event : CalendarEvent :=
  { createCalendarEvent with
    organizer := some "organizer@tutanota.com"
    attendees := [guestAttendee] }

/-- A view-model about to delete `c7event` from the viewer's own
calendar. -/
def c7vm : CalendarEventViewModel := { baseVM with existingEvent := some c7event }

/-- A view-model in the non-organizer response path: saving it mutates the
snapshot's own-attendee status in place. -/
def c8vm : CalendarEventViewModel :=
  { baseVM with
    existingEvent := some { createCalendarEvent with
      organizer := some "other@example.com"
      isCopy := true
      attendees := [{ address := { name := "", address := "organizer@tutanota.com" },
                      status := CalendarAttendeeStatus.NEEDS_ACTION }] }
    going := CalendarAttendeeStatus.ACCEPTED }

/-- A view-model whose repeat rule ends after an invalid count of 0. -/
def c10vm : CalendarEventViewModel :=
  { baseVM with
    repeatProps := some { frequency := RepeatPeriod.DAILY, interval := JsNum.num 1,
                          endType := EndType.Count, endValue := JsNum.num 0 } }

/-!
## Model sanity checks on concrete inputs
-/

def scratchUser : User := { memberships := [{ group := "0", capability := ShareCapability.Write }] }

def scratchCal : List (String × CalendarInfo) :=
  [("0", { groupRoot := "root0", shared := false, group := "0" })]

def scratchSharedCal : List (String × CalendarInfo) :=
  [("0", { groupRoot := "root0", shared := true, group := "0" })]

example :
    eventTypeOf (some { createCalendarEvent with ownerGroup := some "0" }) scratchCal scratchUser
      = EventType.OWN := by decide

example :
    eventTypeOf (some { createCalendarEvent with ownerGroup := some "0", isCopy := true })
      scratchCal scratchUser = EventType.INVITE := by decide

example :
    eventTypeOf (some { createCalendarEvent with ownerGroup := some "0" })
      scratchSharedCal scratchUser = EventType.SHARED_RW := by decide

example :
    eventTypeOf (some { createCalendarEvent with ownerGroup := some "0" })
      scratchSharedCal { memberships := [{ group := "0", capability := ShareCapability.Read }] }
      = EventType.SHARED_RO := by decide

example :
    eventTypeOf (some { createCalendarEvent with ownerGroup := none }) scratchCal scratchUser
      = EventType.INVITE := by decide

example : parseTime "12:00" = some ⟨12, 0⟩ := by decide

example : parseTime "25:00" = none := by decide

example : parseTime "hello" = none := by decide

/-!
## C1: event classification first-match rules
-/

/-- Claim C1: the `_eventType` computed by the constructor equals, for
every combination of existing event, calendar map and viewer, the spec's
first-match rule list: no existing event is OWN; an owning calendar absent
from the viewer's calendar map is INVITE; a shared owning calendar is
SHARED_RW with the Write capability and SHARED_RO without; a personal
owning calendar is INVITE for a copied event and OWN otherwise. -/
theorem eventType_matches_spec_rules (existingEvent : Option CalendarEvent)
    (calendars : List (String × CalendarInfo)) (user : User) :
    eventTypeOf existingEvent calendars user = classifySpec existingEvent calendars user := by
  cases existingEvent with
  | none => rfl
  | some ev =>
    simp only [eventTypeOf, classifySpec]
    cases h : ev.ownerGroup.bind (lookupCalendar calendars) with
    | none => simp [h]
    | some info => simp [h]

/-!
## C2: readOnly iff SHARED_RO, or SHARED_RW with a non-empty attendee list
-/

/-- Claim C2: for every classification and existing event, the constructor's
`readOnly` is true exactly when the classification is SHARED_RO, or it is
SHARED_RW and the existing event's attendee list is non-empty; in
particular it is false for OWN and INVITE and for SHARED_RW with a
guest-free event. -/
theorem readOnly_matches_spec (eventType : EventType) (existingEvent : Option CalendarEvent) :
    readOnlyOf eventType existingEvent
      = (eventType == EventType.SHARED_RO
        || (eventType == EventType.SHARED_RW
            && (match existingEvent with
                | some e => !e.attendees.isEmpty
                | none => false))) := by
  cases existingEvent with
  | none => cases eventType <;> simp [readOnlyOf]
  | some e => cases eventType <;> cases h : e.attendees <;> simp [readOnlyOf, h]

example :
    deleteEvent c7vm none none
      = ([Effect.sendCancellation c7event [guestAttendee.address],
          Effect.storeDeleteEvent c7event], none) := by
  decide

example : List.countP Effect.isSendResponse (onOkPressed c6vm).effects = 1 := by decide

example : (onOkPressed c8vm).vmAfter.existingEvent ≠ c8vm.existingEvent := by decide

/-!
## Helper lemmas
-/

theorem doCreateEvent_isPersist (vm : CalendarEventViewModel) (newEvent : CalendarEvent)
    (ee : Option CalendarEvent) : Effect.isPersist (doCreateEvent vm newEvent ee) = true := by
  cases ee <;> rfl

theorem doCreateEvent_sendRank (vm : CalendarEventViewModel) (newEvent : CalendarEvent)
    (ee : Option CalendarEvent) : Effect.sendRank (doCreateEvent vm newEvent ee) = none := by
  cases ee <;> rfl

theorem doCreateEvent_isSendResponse (vm : CalendarEventViewModel) (newEvent : CalendarEvent)
    (ee : Option CalendarEvent) : Effect.isSendResponse (doCreateEvent vm newEvent ee) = false := by
  cases ee <;> rfl

theorem doCreateEvent_isSendUpdate (vm : CalendarEventViewModel) (newEvent : CalendarEvent)
    (ee : Option CalendarEvent) : Effect.isSendUpdate (doCreateEvent vm newEvent ee) = false := by
  cases ee <;> rfl

theorem doCreateEvent_isSendInvite (vm : CalendarEventViewModel) (newEvent : CalendarEvent)
    (ee : Option CalendarEvent) : Effect.isSendInvite (doCreateEvent vm newEvent ee) = false := by
  cases ee <;> rfl

theorem doCreateEvent_isSendCancellation (vm : CalendarEventViewModel) (newEvent : CalendarEvent)
    (ee : Option CalendarEvent) :
    Effect.isSendCancellation (doCreateEvent vm newEvent ee) = false := by
  cases ee <;> rfl

theorem ownResponseStep_sendRank (vm : CalendarEventViewModel) (newEvent : CalendarEvent) :
    ∀ e ∈ (ownResponseStep vm newEvent).1, Effect.sendRank e = none := by
  unfold ownResponseStep
  split
  · split
    · split
      · simp [Effect.sendRank]
      · simp
    · simp
  · simp

theorem filterMap_sendRank_nil (resp : List Effect)
    (hresp : ∀ e ∈ resp, Effect.sendRank e = none) :
    List.filterMap Effect.sendRank resp = [] := by
  induction resp with
  | nil => rfl
  | cons a t ih =>
    rw [List.filterMap_cons, hresp a (List.mem_cons_self a t)]
    exact ih (fun e he => hresp e (List.mem_cons_of_mem a he))

theorem countP_isPersist_sends (c1 c2 c3 : Bool) (e : CalendarEvent)
    (r1 r2 r3 : List EncryptedMailAddress) :
    List.countP Effect.isPersist
      ((if c1 then [Effect.sendUpdate e r1] else [])
        ++ (if c2 then [Effect.sendInvite e r2] else [])
        ++ (if c3 then [Effect.sendCancellation e r3] else [])) = 0 := by
  cases c1 <;> cases c2 <;> cases c3 <;> rfl

theorem pairwise_ranks_immediate (resp : List Effect)
    (hresp : ∀ e ∈ resp, Effect.sendRank e = none)
    (p : Effect) (hp : Effect.sendRank p = none)
    (c : Bool) (e : CalendarEvent) (r : List EncryptedMailAddress) :
    List.Pairwise (fun x y => x < y) (List.filterMap Effect.sendRank
      (resp ++ [p] ++ (if c then [Effect.sendInvite e r] else []))) := by
  have hr : List.filterMap Effect.sendRank resp = [] := filterMap_sendRank_nil resp hresp
  have hp2 : List.filterMap Effect.sendRank [p] = [] := by
    rw [List.filterMap_cons, hp, List.filterMap_nil]
  have hinv : List.filterMap Effect.sendRank [Effect.sendInvite e r] = [1] := rfl
  cases c with
  | false => simp [List.filterMap_append, hr, hp2]
  | true =>
    have hassoc : resp ++ [p] ++ (if (true : Bool) then [Effect.sendInvite e r] else [])
        = resp ++ (p :: [Effect.sendInvite e r]) := by simp
    rw [hassoc, List.filterMap_append, hr]
    simp only [List.filterMap_cons, hp]
    simp [Effect.sendRank]

theorem pairwise_ranks_callback (p : Effect) (hp : Effect.sendRank p = none)
    (c1 c2 c3 : Bool) (e : CalendarEvent) (r1 r2 r3 : List EncryptedMailAddress) :
    List.Pairwise (fun x y => x < y) (List.filterMap Effect.sendRank
      (p :: ((if c1 then [Effect.sendUpdate e r1] else [])
        ++ (if c2 then [Effect.sendInvite e r2] else [])
        ++ (if c3 then [Effect.sendCancellation e r3] else [])))) := by
  have hstep : ∀ l : List Effect,
      List.filterMap Effect.sendRank (p :: l) = List.filterMap Effect.sendRank l := by
    intro l
    rw [List.filterMap_cons, hp]
  cases c1 <;> cases c2 <;> cases c3 <;>
    simp [hstep, List.filterMap_cons, Effect.sendRank]

/-!
## C3: organizer save with retained or removed attendees defers behind a
confirmation callback
-/

/-- Claim C3: with the viewer as organizer and valid inputs, when the diff's
retained or removed set is non-empty, `onOkPressed` returns ok with a
confirmation callback, having performed no persistence or dispatch and
changed no state; the callback persists exactly once (first), and answering
false persists without sending any email. -/
theorem onOkPressed_asks_before_persisting (vm : CalendarEventViewModel)
    (newEvent : CalendarEvent)
    (h1 : viewingOwnEvent vm = true)
    (h2 : assembleNewEvent vm = Except.ok newEvent)
    (h3 : ((organizerDiff vm).2.1.length != 0 || (organizerDiff vm).2.2.length != 0) = true) :
    (onOkPressed vm).effects = []
    ∧ (onOkPressed vm).vmAfter = vm
    ∧ ∃ cb, (onOkPressed vm).result = SaveResult.ok (some cb)
      ∧ (∀ b, (cb b).head? = some (doCreateEvent vm newEvent vm.existingEvent)
          ∧ List.countP Effect.isPersist (cb b) = 1
          ∧ (∀ eff, eff ∈ cb b → Effect.isPersist eff = false → b = true))
      ∧ cb false = [doCreateEvent vm newEvent vm.existingEvent] := by
  unfold onOkPressed
  rw [h2]
  simp only [h1, Bool.true_and, h3, eq_self_iff_true, if_true]
  refine ⟨trivial, trivial, _, rfl, ?_, ?_⟩
  · intro b
    refine ⟨rfl, ?_, ?_⟩
    · rw [List.countP_cons, doCreateEvent_isPersist, countP_isPersist_sends]
      decide
    · intro eff hmem hnp
      cases b with
      | true => rfl
      | false =>
        exfalso
        simp only [Bool.false_and, Bool.false_eq_true, if_false, List.append_nil,
          List.nil_append, List.mem_singleton] at hmem
        rw [hmem, doCreateEvent_isPersist] at hnp
        simp at hnp
  · simp

/-!
## C4: dispatch order is update, then invite, then cancellation
-/

/-- Claim C4: in every save, whether dispatched immediately or from the
confirmation callback (for either answer), the send ranks (update 0,
invite 1, cancellation 2) appear in strictly increasing order: a
cancellation is never initiated before an invite or update, nor an invite
before an update. -/
theorem dispatch_order_contract (vm : CalendarEventViewModel) (b : Bool) :
    List.Pairwise (fun x y => x < y)
      (((onOkPressed vm).effects).filterMap Effect.sendRank)
    ∧ List.Pairwise (fun x y => x < y)
      ((callbackTrace (onOkPressed vm) b).filterMap Effect.sendRank) := by
  unfold onOkPressed
  cases hA : assembleNewEvent vm with
  | error k => simp [callbackTrace]
  | ok newEvent =>
    by_cases hown : viewingOwnEvent vm = true
    · simp only [hown, if_true, Bool.true_and]
      by_cases hc : ((organizerDiff vm).2.1.length != 0 || (organizerDiff vm).2.2.length != 0)
        = true
      · simp only [hc, if_true]
        constructor
        · simp
        · exact pairwise_ranks_callback _ (doCreateEvent_sendRank ..) _ _ _ _ _ _ _
      · simp only [Bool.not_eq_true] at hc
        simp only [hc, Bool.false_eq_true, if_false]
        constructor
        · exact pairwise_ranks_immediate [] (by simp) _ (doCreateEvent_sendRank ..) _ _ _
        · simp [callbackTrace]
    · simp only [Bool.not_eq_true] at hown
      simp only [hown, Bool.false_eq_true, if_false, Bool.false_and, Bool.false_or]
      simp only [List.length_nil, show ((0 : Nat) != 0) = false from rfl, if_false]
      constructor
      · exact pairwise_ranks_immediate _ (ownResponseStep_sendRank vm newEvent) _
          (doCreateEvent_sendRank ..) _ _ _
      · simp [callbackTrace]

theorem mem_diffNewRetained (mas : List String) (prior current : List CalendarEventAttendee)
    (a : CalendarEventAttendee) :
    (a ∈ (diffNewRetained mas prior current).2 ↔
      a ∈ current ∧ mas.contains a.address.address = false
        ∧ prior.any (fun ea => ea.address.address == a.address.address) = true)
    ∧ (a ∈ (diffNewRetained mas prior current).1 ↔
      a ∈ current ∧ mas.contains a.address.address = false
        ∧ prior.any (fun ea => ea.address.address == a.address.address) = false) := by
  induction current with
  | nil => simp [diffNewRetained]
  | cons c rest ih =>
    cases h1 : mas.contains c.address.address with
    | true =>
      simp only [diffNewRetained, h1, reduceIte]
      refine ⟨?_, ?_⟩
      · rw [ih.1]
        constructor
        · rintro ⟨hm, hca, hpa⟩
          exact ⟨List.mem_cons_of_mem c hm, hca, hpa⟩
        · rintro ⟨hm, hca, hpa⟩
          rcases List.mem_cons.mp hm with rfl | hm2
          · rw [h1] at hca
            exact Bool.noConfusion hca
          · exact ⟨hm2, hca, hpa⟩
      · rw [ih.2]
        constructor
        · rintro ⟨hm, hca, hpa⟩
          exact ⟨List.mem_cons_of_mem c hm, hca, hpa⟩
        · rintro ⟨hm, hca, hpa⟩
          rcases List.mem_cons.mp hm with rfl | hm2
          · rw [h1] at hca
            exact Bool.noConfusion hca
          · exact ⟨hm2, hca, hpa⟩
    | false =>
      cases h2 : prior.any (fun ea => ea.address.address == c.address.address) with
      | true =>
        simp only [diffNewRetained, h1, h2, Bool.false_eq_true, reduceIte]
        refine ⟨?_, ?_⟩
        · constructor
          · intro hm
            rcases List.mem_cons.mp hm with rfl | hm2
            · exact ⟨List.mem_cons_self a rest, h1, h2⟩
            · obtain ⟨hm3, hca, hpa⟩ := (ih.1).mp hm2
              exact ⟨List.mem_cons_of_mem c hm3, hca, hpa⟩
          · rintro ⟨hm, hca, hpa⟩
            rcases List.mem_cons.mp hm with rfl | hm2
            · exact List.mem_cons_self a _
            · exact List.mem_cons_of_mem c ((ih.1).mpr ⟨hm2, hca, hpa⟩)
        · rw [ih.2]
          constructor
          · rintro ⟨hm, hca, hpa⟩
            exact ⟨List.mem_cons_of_mem c hm, hca, hpa⟩
          · rintro ⟨hm, hca, hpa⟩
            rcases List.mem_cons.mp hm with rfl | hm2
            · rw [h2] at hpa
              exact Bool.noConfusion hpa
            · exact ⟨hm2, hca, hpa⟩
      | false =>
        simp only [diffNewRetained, h1, h2, Bool.false_eq_true, reduceIte]
        refine ⟨?_, ?_⟩
        · rw [ih.1]
          constructor
          · rintro ⟨hm, hca, hpa⟩
            exact ⟨List.mem_cons_of_mem c hm, hca, hpa⟩
          · rintro ⟨hm, hca, hpa⟩
            rcases List.mem_cons.mp hm with rfl | hm2
            · rw [h2] at hpa
              exact Bool.noConfusion hpa
            · exact ⟨hm2, hca, hpa⟩
        · constructor
          · intro hm
            rcases List.mem_cons.mp hm with rfl | hm2
            · exact ⟨List.mem_cons_self a rest, h1, h2⟩
            · obtain ⟨hm3, hca, hpa⟩ := (ih.2).mp hm2
              exact ⟨List.mem_cons_of_mem c hm3, hca, hpa⟩
          · rintro ⟨hm, hca, hpa⟩
            rcases List.mem_cons.mp hm with rfl | hm2
            · exact List.mem_cons_self a _
            · exact List.mem_cons_of_mem c ((ih.2).mpr ⟨hm2, hca, hpa⟩)

theorem mem_removedAttendeesOf (mas : List String) (prior current : List CalendarEventAttendee)
    (a : CalendarEventAttendee) :
    a ∈ removedAttendeesOf mas prior current ↔
      a ∈ prior ∧ mas.contains a.address.address = false
        ∧ current.any (fun ca => a.address.address == ca.address.address) = false := by
  unfold removedAttendeesOf
  rw [List.mem_filter]
  simp [Bool.and_eq_true, Bool.not_eq_true']

/-!
## C5: the attendee diff partitions the lists as specified
-/

/-- Claim C5: across all viewer addresses, prior and current attendee
lists, the organizer diff excludes the viewer's own addresses from all
three sets; classifies a remaining current attendee as retained exactly
when its address occurs in the prior list and as new otherwise; classifies
a remaining prior attendee as removed exactly when its address does not
occur in the current list; keeps the three sets pairwise address-disjoint;
and with an empty prior list both retained and removed are empty. -/
theorem attendee_diff_partition (mailAddresses : List String)
    (prior current : List CalendarEventAttendee) :
    ((∀ a, a ∈ (diffNewRetained mailAddresses prior current).1
        ∨ a ∈ (diffNewRetained mailAddresses prior current).2
        ∨ a ∈ removedAttendeesOf mailAddresses prior current →
        mailAddresses.contains a.address.address = false)
    ∧ (∀ a, a ∈ (diffNewRetained mailAddresses prior current).2 ↔
        a ∈ current ∧ mailAddresses.contains a.address.address = false
          ∧ prior.any (fun ea => ea.address.address == a.address.address) = true)
    ∧ (∀ a, a ∈ (diffNewRetained mailAddresses prior current).1 ↔
        a ∈ current ∧ mailAddresses.contains a.address.address = false
          ∧ prior.any (fun ea => ea.address.address == a.address.address) = false)
    ∧ (∀ a, a ∈ removedAttendeesOf mailAddresses prior current ↔
        a ∈ prior ∧ mailAddresses.contains a.address.address = false
          ∧ current.any (fun ca => a.address.address == ca.address.address) = false))
    ∧ ((∀ a b, a ∈ (diffNewRetained mailAddresses prior current).1 →
        b ∈ (diffNewRetained mailAddresses prior current).2 →
        a.address.address ≠ b.address.address)
    ∧ (∀ a b, a ∈ (diffNewRetained mailAddresses prior current).1 →
        b ∈ removedAttendeesOf mailAddresses prior current →
        a.address.address ≠ b.address.address)
    ∧ (∀ a b, a ∈ (diffNewRetained mailAddresses prior current).2 →
        b ∈ removedAttendeesOf mailAddresses prior current →
        a.address.address ≠ b.address.address))
    ∧ ((diffNewRetained mailAddresses [] current).2 = []
    ∧ removedAttendeesOf mailAddresses [] current = []) := by
  refine ⟨⟨?_, ?_, ?_, ?_⟩, ⟨?_, ?_, ?_⟩, ?_, ?_⟩
  · intro a ha
    rcases ha with h | h | h
    · exact ((mem_diffNewRetained mailAddresses prior current a).2.mp h).2.1
    · exact ((mem_diffNewRetained mailAddresses prior current a).1.mp h).2.1
    · exact ((mem_removedAttendeesOf mailAddresses prior current a).mp h).2.1
  · exact fun a => (mem_diffNewRetained mailAddresses prior current a).1
  · exact fun a => (mem_diffNewRetained mailAddresses prior current a).2
  · exact fun a => mem_removedAttendeesOf mailAddresses prior current a
  · intro a b ha hb heq
    obtain ⟨-, -, hpa⟩ := (mem_diffNewRetained mailAddresses prior current a).2.mp ha
    obtain ⟨-, -, hpb⟩ := (mem_diffNewRetained mailAddresses prior current b).1.mp hb
    rw [heq] at hpa
    rw [hpb] at hpa
    exact Bool.noConfusion hpa
  · intro a b ha hb heq
    obtain ⟨hac, -, -⟩ := (mem_diffNewRetained mailAddresses prior current a).2.mp ha
    obtain ⟨-, -, hcb⟩ := (mem_removedAttendeesOf mailAddresses prior current b).mp hb
    have : current.any (fun ca => b.address.address == ca.address.address) = true :=
      List.any_eq_true.mpr ⟨a, hac, by rw [← heq]; exact beq_self_eq_true _⟩
    rw [this] at hcb
    exact Bool.noConfusion hcb
  · intro a b ha hb heq
    obtain ⟨hac, -, -⟩ := (mem_diffNewRetained mailAddresses prior current a).1.mp ha
    obtain ⟨-, -, hcb⟩ := (mem_removedAttendeesOf mailAddresses prior current b).mp hb
    have : current.any (fun ca => b.address.address == ca.address.address) = true :=
      List.any_eq_true.mpr ⟨a, hac, by rw [← heq]; exact beq_self_eq_true _⟩
    rw [this] at hcb
    exact Bool.noConfusion hcb
  · rw [List.eq_nil_iff_forall_not_mem]
    intro a ha
    obtain ⟨-, -, hpa⟩ := (mem_diffNewRetained mailAddresses [] current a).1.mp ha
    simp at hpa
  · rfl

/-!
## C6: the non-organizer path sends at most one response, then persists,
and never asks for confirmation
-/

/-- Claim C6: with the viewer not the organizer and valid inputs,
`onOkPressed` always returns ok with a null `askForUpdates`; it dispatches
a `sendResponse` exactly once when and only when the viewer appears as an
attendee on the existing event with a selected going status that is not
needs-action and differs from the last-saved one (the response carries the
assembled event, the viewer's address and the new status); it persists
exactly once, as the last initiated effect, and dispatches no update,
invite or cancellation. -/
theorem onOkPressed_own_response (vm : CalendarEventViewModel) (newEvent : CalendarEvent)
    (h1 : viewingOwnEvent vm = false)
    (h2 : assembleNewEvent vm = Except.ok newEvent) :
    (onOkPressed vm).result = SaveResult.ok none
    ∧ List.countP Effect.isSendResponse (onOkPressed vm).effects
        = (if ownResponseCondition vm then 1 else 0)
    ∧ List.countP Effect.isPersist (onOkPressed vm).effects = 1
    ∧ List.countP Effect.isSendUpdate (onOkPressed vm).effects = 0
    ∧ List.countP Effect.isSendInvite (onOkPressed vm).effects = 0
    ∧ List.countP Effect.isSendCancellation (onOkPressed vm).effects = 0
    ∧ (∃ p, ((onOkPressed vm).effects).getLast? = some p ∧ Effect.isPersist p = true)
    ∧ (∀ ev2 sender status, Effect.sendResponse ev2 sender status ∈ (onOkPressed vm).effects →
        ev2 = newEvent ∧ status = vm.going
          ∧ vm.mailAddresses.contains sender.address = true) := by
  obtain ⟨prior, hprior⟩ : ∃ prior, vm.existingEvent = some prior := by
    cases hx : vm.existingEvent with
    | none =>
      exfalso
      simp [viewingOwnEvent, hx] at h1
    | some prior => exact ⟨prior, rfl⟩
  unfold onOkPressed
  rw [h2]
  simp only [h1, Bool.false_eq_true, reduceIte, Bool.false_and, Bool.false_or,
    List.length_nil, bne_self_eq_false, List.append_nil]
  simp only [ownResponseStep, ownResponseCondition, hprior]
  cases hf : prior.attendees.find? (fun a => vm.mailAddresses.contains a.address.address) with
  | none =>
    simp only [hf, doCreateEvent, List.nil_append]
    refine ⟨trivial, by simp [List.countP_cons, Effect.isSendResponse],
      by simp [List.countP_cons, Effect.isPersist],
      by simp [List.countP_cons, Effect.isSendUpdate],
      by simp [List.countP_cons, Effect.isSendInvite],
      by simp [List.countP_cons, Effect.isSendCancellation],
      ⟨_, rfl, rfl⟩, ?_⟩
    intro ev2 sender status hmem
    simp at hmem
  | some ownAtt =>
    cases hcond : (vm.going != CalendarAttendeeStatus.NEEDS_ACTION
        && ownAtt.status != vm.going) with
    | false =>
      simp only [hf, hcond, Bool.false_eq_true, reduceIte, doCreateEvent, List.nil_append]
      refine ⟨trivial, by simp [List.countP_cons, Effect.isSendResponse],
        by simp [List.countP_cons, Effect.isPersist],
        by simp [List.countP_cons, Effect.isSendUpdate],
        by simp [List.countP_cons, Effect.isSendInvite],
        by simp [List.countP_cons, Effect.isSendCancellation],
        ⟨_, rfl, rfl⟩, ?_⟩
      intro ev2 sender status hmem
      simp at hmem
    | true =>
      simp only [hf, hcond, reduceIte, doCreateEvent, List.cons_append, List.nil_append]
      refine ⟨trivial, by simp [List.countP_cons, Effect.isSendResponse],
        by simp [List.countP_cons, Effect.isPersist],
        by simp [List.countP_cons, Effect.isSendUpdate],
        by simp [List.countP_cons, Effect.isSendInvite],
        by simp [List.countP_cons, Effect.isSendCancellation],
        ⟨_, rfl, rfl⟩, ?_⟩
      intro ev2 sender status hmem
      rcases List.mem_cons.mp hmem with he | hmem2
      · injection he with e1 e2 e3
        subst e1
        subst e2
        subst e3
        refine ⟨rfl, rfl, ?_⟩
        have hp := List.find?_some hf
        simpa using hp
      · exfalso
        simp at hmem2

/-!
## C7: deleteEvent cancels before deleting exactly for OWN events with
attendees, and swallows not-found failures
-/

/-- Claim C7: deleting an existing event sends exactly one cancellation,
addressed to all the event's attendees and initiated before the store
delete, precisely when the classification is OWN and the attendee list is
non-empty; otherwise it deletes without sending.  A not-found failure
anywhere in the flow is swallowed into success, while any other failure
propagates. -/
theorem deleteEvent_cancellation_and_notfound (vm : CalendarEventViewModel)
    (ev : CalendarEvent) (cancellationFailure deleteFailure : Option RestError)
    (h : vm.existingEvent = some ev) :
    ((vm.eventType = EventType.OWN ∧ ev.attendees ≠ []) →
      (deleteEvent vm cancellationFailure deleteFailure).1
        = Effect.sendCancellation ev (ev.attendees.map (fun a => a.address))
          :: (match cancellationFailure with
              | none => [Effect.storeDeleteEvent ev]
              | some _ => []))
    ∧ (¬(vm.eventType = EventType.OWN ∧ ev.attendees ≠ []) →
      (deleteEvent vm cancellationFailure deleteFailure).1 = [Effect.storeDeleteEvent ev])
    ∧ (deleteEvent vm cancellationFailure deleteFailure).2 ≠ some RestError.notFound
    ∧ (cancellationFailure ≠ some RestError.other → deleteFailure ≠ some RestError.other →
      (deleteEvent vm cancellationFailure deleteFailure).2 = none)
    ∧ ((deleteEvent vm cancellationFailure deleteFailure).2 = some RestError.other →
      cancellationFailure = some RestError.other ∨ deleteFailure = some RestError.other)
    ∧ ((vm.eventType = EventType.OWN ∧ ev.attendees ≠ []) →
      cancellationFailure = some RestError.other →
      (deleteEvent vm cancellationFailure deleteFailure).2 = some RestError.other)
    ∧ (((vm.eventType = EventType.OWN ∧ ev.attendees ≠ []) → cancellationFailure = none) →
      deleteFailure = some RestError.other →
      (deleteEvent vm cancellationFailure deleteFailure).2 = some RestError.other) := by
  have hbool : (vm.eventType == EventType.OWN && ev.attendees.length != 0) = true
      ↔ (vm.eventType = EventType.OWN ∧ ev.attendees ≠ []) := by
    rw [Bool.and_eq_true, beq_iff_eq, bne_iff_ne]
    constructor
    · rintro ⟨hty, hlen⟩
      exact ⟨hty, fun hnil => hlen (by rw [hnil]; rfl)⟩
    · rintro ⟨hty, hne⟩
      exact ⟨hty, fun hlen => hne (List.length_eq_zero.mp hlen)⟩
  unfold deleteEvent
  rw [h]
  cases hcen : (vm.eventType == EventType.OWN && ev.attendees.length != 0) with
  | true =>
    have hP : vm.eventType = EventType.OWN ∧ ev.attendees ≠ [] := hbool.mp hcen
    simp only [hcen, reduceIte]
    cases cancellationFailure with
    | some cf =>
      cases cf with
      | notFound =>
        refine ⟨fun _ => rfl, fun hn => absurd hP hn, ?_, fun _ _ => rfl, ?_, ?_, ?_⟩
        · simp [catchNotFound]
        · intro hother
          simp [catchNotFound] at hother
        · intro _ hco
          exact absurd hco (by decide)
        · intro hPC _
          exact Option.noConfusion (hPC hP)
      | other =>
        refine ⟨fun _ => rfl, fun hn => absurd hP hn, ?_, fun hc _ => absurd rfl hc,
          fun _ => Or.inl rfl, fun _ _ => rfl, ?_⟩
        · simp [catchNotFound]
        · intro hPC _
          exact Option.noConfusion (hPC hP)
    | none =>
      cases deleteFailure with
      | none =>
        refine ⟨fun _ => rfl, fun hn => absurd hP hn, by simp [catchNotFound],
          fun _ _ => rfl, by simp [catchNotFound], by simp, by simp⟩
      | some df =>
        cases df <;>
          refine ⟨fun _ => rfl, fun hn => absurd hP hn, ?_, ?_, ?_, ?_, ?_⟩ <;>
            simp [catchNotFound]
  | false =>
    have hP : ¬(vm.eventType = EventType.OWN ∧ ev.attendees ≠ []) := by
      intro hp
      rw [hbool.mpr hp] at hcen
      exact Bool.noConfusion hcen
    simp only [hcen, Bool.false_eq_true, reduceIte]
    cases deleteFailure with
    | none =>
      refine ⟨fun hp => absurd hp hP, by intros; first | rfl | trivial,
        by simp [catchNotFound], by intros; first | rfl | trivial,
        by simp [catchNotFound], fun hp => absurd hp hP, by simp⟩
    | some df =>
      cases df <;>
        refine ⟨fun hp => absurd hp hP, by intros; first | rfl | trivial, ?_, ?_, ?_,
          fun hp => absurd hp hP, ?_⟩ <;>
          simp [catchNotFound]
/-!
## C8: mutation of the existingEvent snapshot
-/

theorem forall2_updateFirstOwnStatus (mas : List String) (going : CalendarAttendeeStatus)
    (l : List CalendarEventAttendee) :
    List.Forall₂ (fun a2 a => a2.address = a.address
      ∧ (a2.status = a.status
        ∨ (mas.contains a.address.address = true ∧ a2.status = going)))
      (updateFirstOwnStatus mas going l) l := by
  induction l with
  | nil => exact List.Forall₂.nil
  | cons a rest ih =>
    unfold updateFirstOwnStatus
    cases hc : mas.contains a.address.address with
    | true =>
      simp only [reduceIte]
      exact List.Forall₂.cons ⟨rfl, Or.inr ⟨hc, rfl⟩⟩
        (List.forall₂_same.mpr (fun x hx => ⟨rfl, Or.inl rfl⟩))
    | false =>
      simp only [Bool.false_eq_true, reduceIte]
      exact List.Forall₂.cons ⟨rfl, Or.inl rfl⟩ ih

theorem ownResponseStep_existing (vm : CalendarEventViewModel) (newEvent : CalendarEvent) :
    (ownResponseStep vm newEvent).2 = vm.existingEvent
    ∨ ∃ prior, vm.existingEvent = some prior
        ∧ (ownResponseStep vm newEvent).2
          = some { prior with
              attendees := updateFirstOwnStatus vm.mailAddresses vm.going prior.attendees } := by
  cases hE : vm.existingEvent with
  | none =>
    simp only [ownResponseStep, hE]
    exact Or.inl (by first | rfl | trivial)
  | some prior =>
    simp only [ownResponseStep, hE]
    cases hf : prior.attendees.find? (fun a => vm.mailAddresses.contains a.address.address) with
    | none =>
      simp only [hf]
      exact Or.inl (by first | rfl | trivial)
    | some ownAtt =>
      simp only [hf]
      cases hcond : (vm.going != CalendarAttendeeStatus.NEEDS_ACTION
          && ownAtt.status != vm.going) with
      | false =>
        simp only [hcond, Bool.false_eq_true, reduceIte]
        exact Or.inl (by first | rfl | trivial)
      | true =>
        simp only [hcond, reduceIte]
        exact Or.inr ⟨prior, by first | rfl | trivial, by first | rfl | trivial⟩

/-- Counterexample to claim C8 as stated: saving an invite answer mutates
the snapshot in place — after `onOkPressed` on `c8vm` the existing event's
own-attendee status has changed from NEEDS_ACTION to ACCEPTED. -/
theorem onOkPressed_mutates_snapshot_cex :
    (onOkPressed c8vm).vmAfter.existingEvent ≠ c8vm.existingEvent := by decide

/-- Claim C8 as amended: `onOkPressed` leaves every view-model field other
than `existingEvent` unchanged, leaves `existingEvent` itself unchanged
whenever the viewer is the organizer, and otherwise changes at most the
status of the viewer's own attendee entry on the snapshot (to the selected
going status); addresses, attendee count and all other event fields are
preserved. -/
theorem onOkPressed_mutates_only_own_attendee_status (vm : CalendarEventViewModel) :
    ({ (onOkPressed vm).vmAfter with existingEvent := vm.existingEvent } = vm)
    ∧ (viewingOwnEvent vm = true → (onOkPressed vm).vmAfter.existingEvent = vm.existingEvent)
    ∧ (vm.existingEvent = none → (onOkPressed vm).vmAfter.existingEvent = none)
    ∧ (∀ prior, vm.existingEvent = some prior →
        ∃ prior2, (onOkPressed vm).vmAfter.existingEvent = some prior2
          ∧ { prior2 with attendees := prior.attendees } = prior
          ∧ List.Forall₂ (fun a2 a => a2.address = a.address
              ∧ (a2.status = a.status
                ∨ (vm.mailAddresses.contains a.address.address = true
                  ∧ a2.status = vm.going)))
            prior2.attendees prior.attendees) := by
  unfold onOkPressed
  cases hA : assembleNewEvent vm with
  | error k =>
    refine ⟨rfl, fun _ => rfl, fun h => h, ?_⟩
    intro prior hp
    exact ⟨prior, hp, rfl, List.forall₂_same.mpr (fun x hx => ⟨rfl, Or.inl rfl⟩)⟩
  | ok newEvent =>
    by_cases hown : viewingOwnEvent vm = true
    · simp only [hown, reduceIte]
      split <;>
        exact ⟨rfl, fun _ => rfl, fun h => h, fun prior hp =>
          ⟨prior, hp, rfl, List.forall₂_same.mpr (fun x hx => ⟨rfl, Or.inl rfl⟩)⟩⟩
    · simp only [Bool.not_eq_true] at hown
      simp only [hown, Bool.false_eq_true, reduceIte]
      have hstep := ownResponseStep_existing vm newEvent
      split <;>
      · refine ⟨rfl, fun h => absurd h (by simp [hown]), ?_, ?_⟩
        · intro hnone
          rcases hstep with h1 | ⟨prior, hp, h2⟩
          · show (ownResponseStep vm newEvent).2 = none
            rw [h1, hnone]
          · rw [hnone] at hp
            exact Option.noConfusion hp
        · intro prior hp
          rcases hstep with h1 | ⟨prior3, hp3, h2⟩
          · refine ⟨prior, ?_, rfl,
              List.forall₂_same.mpr (fun x hx => ⟨rfl, Or.inl rfl⟩)⟩
            show (ownResponseStep vm newEvent).2 = some prior
            rw [h1, hp]
          · rw [hp] at hp3
            injection hp3 with hp4
            subst hp4
            refine ⟨_, h2, rfl, forall2_updateFirstOwnStatus vm.mailAddresses vm.going
              prior.attendees⟩

/-!
## C9: validation failures return structured errors with no effects and
no state change
-/

/-- Claim C9: for a non-all-day save whose start or end time string does
not parse, `onOkPressed` returns the InvalidTimeFormat error
(`timeFormatInvalid_msg`); for any save whose computed end instant is not
strictly after the computed start, it returns the EndBeforeStart error
(`startAfterEnd_label`); in both cases no store or distributor call
happens and the view-model is unchanged. -/
theorem validation_precedes_effects (vm : CalendarEventViewModel) :
    (vm.allDay = false →
      (parseTime vm.startTime = none ∨ parseTime vm.endTime = none) →
      (onOkPressed vm).effects = []
        ∧ (onOkPressed vm).result = SaveResult.error TranslationKey.timeFormatInvalid_msg
        ∧ (onOkPressed vm).vmAfter = vm)
    ∧ (∀ s e, computeStartEnd vm = some (s, e) → e ≤ s →
      (onOkPressed vm).effects = []
        ∧ (onOkPressed vm).result = SaveResult.error TranslationKey.startAfterEnd_label
        ∧ (onOkPressed vm).vmAfter = vm) := by
  constructor
  · intro hall hparse
    have hce : computeStartEnd vm = none := by
      unfold computeStartEnd
      rw [if_neg (by rw [hall]; exact Bool.false_ne_true)]
      rcases hparse with hp | hp
      · rw [hp]
      · rw [hp]
        cases parseTime vm.startTime <;> rfl
    have hA : assembleNewEvent vm = Except.error TranslationKey.timeFormatInvalid_msg := by
      unfold assembleNewEvent
      rw [hce]
    unfold onOkPressed
    rw [hA]
    exact ⟨rfl, rfl, rfl⟩
  · intro s e hce hle
    have hA : assembleNewEvent vm = Except.error TranslationKey.startAfterEnd_label := by
      unfold assembleNewEvent
      simp only [hce]
      rw [if_pos hle]
    unfold onOkPressed
    rw [hA]
    exact ⟨rfl, rfl, rfl⟩

/-!
## C10: an invalid repeat count silently degrades to a never-ending repeat
-/

/-- Claim C10: when the repeat end condition is Count with an end value
that is `NaN` or below 1, `onOkPressed` does not fail: the assembled
event's repeat rule keeps the selected frequency but its end type is
silently replaced by Never, and the save returns an ok result. -/
theorem repeat_count_invalid_becomes_never (vm : CalendarEventViewModel)
    (rp : RepeatProps) (s e : Int)
    (h1 : vm.repeatProps = some rp)
    (h2 : rp.endType = EndType.Count)
    (h3 : rp.endValue = JsNum.nan ∨ ∃ c, rp.endValue = JsNum.num c ∧ c < 1)
    (h4 : computeStartEnd vm = some (s, e))
    (h5 : s < e) :
    ∃ ev rule, assembleNewEvent vm = Except.ok ev
      ∧ ev.repeatRule = some rule
      ∧ rule.endType = EndType.Never
      ∧ rule.frequency = rp.frequency
      ∧ ∃ ask, (onOkPressed vm).result = SaveResult.ok ask := by
  have hrr : ∀ x : Int, assembleRepeatRule vm x
      = Except.ok (some { createRepeatRuleWithValues rp.frequency rp.interval.orOne with
          endType := EndType.Never }) := by
    intro x
    unfold assembleRepeatRule
    simp only [h1, h2]
    rcases h3 with h3 | ⟨c, hc, hlt⟩
    · rw [h3]
    · simp only [hc]
      rw [if_pos hlt]
  obtain ⟨ev, hAe, hevr⟩ : ∃ ev, assembleNewEvent vm = Except.ok ev
      ∧ ev.repeatRule = some { createRepeatRuleWithValues rp.frequency rp.interval.orOne with
          endType := EndType.Never } := by
    unfold assembleNewEvent
    simp only [h4]
    rw [if_neg (not_le.mpr h5)]
    rw [hrr]
    exact ⟨_, rfl, rfl⟩
  refine ⟨ev, _, hAe, hevr, rfl, rfl, ?_⟩
  unfold onOkPressed
  simp only [hAe]
  split <;> split <;> first | exact ⟨_, rfl⟩ | exact ⟨none, rfl⟩
/-!
## Witnesses
-/

/-- Witness for C3 at `c3vm`: the hypotheses hold and the conclusion is
realised on a concrete deferred save. -/
theorem onOkPressed_asks_before_persisting_witness :
    (onOkPressed c3vm).effects = []
    ∧ (onOkPressed c3vm).vmAfter = c3vm
    ∧ ∃ cb, (onOkPressed c3vm).result = SaveResult.ok (some cb)
      ∧ (∀ b, (cb b).head? = some (doCreateEvent c3vm c3event c3vm.existingEvent)
          ∧ List.countP Effect.isPersist (cb b) = 1
          ∧ (∀ eff, eff ∈ cb b → Effect.isPersist eff = false → b = true))
      ∧ cb false = [doCreateEvent c3vm c3event c3vm.existingEvent] :=
  onOkPressed_asks_before_persisting c3vm c3event rfl rfl rfl

/-- Witness for C6 at `c6vm`: a concrete invite answer sends one response
and persists without asking. -/
theorem onOkPressed_own_response_witness :
    (onOkPressed c6vm).result = SaveResult.ok none
    ∧ List.countP Effect.isSendResponse (onOkPressed c6vm).effects
        = (if ownResponseCondition c6vm then 1 else 0)
    ∧ List.countP Effect.isPersist (onOkPressed c6vm).effects = 1
    ∧ List.countP Effect.isSendUpdate (onOkPressed c6vm).effects = 0
    ∧ List.countP Effect.isSendInvite (onOkPressed c6vm).effects = 0
    ∧ List.countP Effect.isSendCancellation (onOkPressed c6vm).effects = 0
    ∧ (∃ p, ((onOkPressed c6vm).effects).getLast? = some p ∧ Effect.isPersist p = true)
    ∧ (∀ ev2 sender status, Effect.sendResponse ev2 sender status ∈ (onOkPressed c6vm).effects →
        ev2 = c6event ∧ status = c6vm.going
          ∧ c6vm.mailAddresses.contains sender.address = true) :=
  onOkPressed_own_response c6vm c6event rfl rfl

/-- Witness for C7 at `c7vm`: deleting an own event with one guest sends
the cancellation to that guest and then deletes, successfully. -/
theorem deleteEvent_cancellation_and_notfound_witness :
    (deleteEvent c7vm none none).1
      = [Effect.sendCancellation c7event [guestAttendee.address],
          Effect.storeDeleteEvent c7event]
    ∧ (deleteEvent c7vm none none).2 = none := by
  have h := deleteEvent_cancellation_and_notfound c7vm c7event none none rfl
  refine ⟨?_, h.2.2.2.1 (by decide) (by decide)⟩
  have h1 := h.1 ⟨rfl, by decide⟩
  exact h1

/-- Witness for C10 at `c10vm`: a repeat with Count end and value 0 is
saved with a Never end and the save succeeds. -/
theorem repeat_count_invalid_becomes_never_witness :
    ∃ ev rule, assembleNewEvent c10vm = Except.ok ev
      ∧ ev.repeatRule = some rule
      ∧ rule.endType = EndType.Never
      ∧ rule.frequency = RepeatPeriod.DAILY
      ∧ ∃ ask, (onOkPressed c10vm).result = SaveResult.ok ask :=
  repeat_count_invalid_becomes_never c10vm
    { frequency := RepeatPeriod.DAILY, interval := JsNum.num 1,
      endType := EndType.Count, endValue := JsNum.num 0 }
    0 1440 rfl rfl (Or.inr ⟨0, rfl, by decide⟩) rfl (by decide)

end Tutanota
